import Mathlib

/-!
Verification of the MAP-Tk `apply_gcp` tool (src/tools/apply_gcp.cxx)
against its natural-language specification.

We shallowly embed the tool's data structures and control flow:

* filename stems (`kwiversys::SystemTools::GetFilenameWithoutLastExtension`),
* the `std::map`-backed frame index (`filename2frame` / `frame2filename`),
* camera-file resolution (`files_in_dir` / `resolve_files`) and
  KRTD camera loading (`load_input_cameras_krtd`),
* the local geo coordinate system origin handling (load / persist),
* the similarity-transform resolution block of `maptk_main`,
* the command-line / exit-code behaviour of `maptk_main` and `main`.

External collaborators (triangulator, similarity / canonical estimators,
geo projection, file parsing) are passed in as parameters; components of
this repository that live outside the embedded source file
(`local_geo_cs`, `load_reference_file`) are modelled from the spec and
marked as such in their doc comments.
-/

namespace ApplyGcp

/-! ## Filename stems

`GetFilenameWithoutLastExtension` takes the component after the last
path separator and drops everything from the last dot on. -/

/-- Suffix of a character list strictly after the last occurrence of `c`
(the whole list when `c` does not occur). -/
def afterLast (c : Char) : List Char → List Char
  | [] => []
  | x :: xs => if xs.contains c || x = c then afterLast c xs else x :: xs

/-- Portion of a character list strictly before the last occurrence of `c`
(the whole list when `c` does not occur). -/
def beforeLast (c : Char) : List Char → List Char
  | [] => []
  | x :: xs =>
    if xs.contains c then x :: beforeLast c xs
    else if x = c then [] else x :: xs

/-- Embedding of `ST::GetFilenameWithoutLastExtension`: the filename
component after the last `/` with its last extension (from the last `.`)
removed. -/
def stem (p : String) : String :=
  ⟨beforeLast '.' (afterLast '/' p.data)⟩

/-! ## String-keyed ordered map (`std::map<std::string, frame_id_t>`) -/

/-- Byte-wise lexicographic comparison of character lists, mirroring
`std::string` comparison. -/
def charListLe : List Char → List Char → Bool
  | [], _ => true
  | _ :: _, [] => false
  | a :: as, b :: bs => if a = b then charListLe as bs else decide (a < b)

/-- String comparison used for `std::sort` over paths. -/
def strLe (a b : String) : Bool :=
  charListLe a.data b.data

/-- An ordered association list standing for
`std::map<std::string, frame_id_t>`. -/
abbrev SMap := List (String × Nat)

/-- First-match lookup, the analogue of `std::map::find`. -/
def slookup : SMap → String → Option Nat
  | [], _ => none
  | (k', v') :: rest, k => if k = k' then some v' else slookup rest k

/-- Insert-or-assign in key order, the analogue of `operator[]` on
`std::map` (later assignments to the same key overwrite). -/
def sinsert : SMap → String → Nat → SMap
  | [], k, v => [(k, v)]
  | (k', v') :: rest, k, v =>
    if strLe k k' && !(k = k' : Bool) then (k, v) :: (k', v') :: rest
    else if k = k' then (k, v) :: rest
    else (k', v') :: sinsert rest k v

theorem slookup_sinsert_self (m : SMap) (k : String) (v : Nat) :
    slookup (sinsert m k v) k = some v := by
  induction m with
  | nil => simp [sinsert, slookup]
  | cons p rest ih =>
    obtain ⟨k', v'⟩ := p
    by_cases hk : k = k'
    · subst hk
      simp [sinsert, slookup]
    · simp only [sinsert]
      by_cases hle : strLe k k'
      · simp [hle, hk, slookup]
      · simp [hle, hk, slookup, ih]

theorem slookup_sinsert_ne (m : SMap) (k k' : String) (v : Nat) (h : k' ≠ k) :
    slookup (sinsert m k v) k' = slookup m k' := by
  induction m with
  | nil => simp [sinsert, slookup, h]
  | cons p rest ih =>
    obtain ⟨k₀, v₀⟩ := p
    by_cases hk : k = k₀
    · subst hk
      simp [sinsert, slookup, h]
    · simp only [sinsert]
      by_cases hle : strLe k k₀
      · by_cases hk' : k' = k₀
        · subst hk'
          simp [hle, hk, slookup, h]
        · simp [hle, hk, hk', slookup, h]
      · by_cases hk' : k' = k₀
        · subst hk'
          simp [hle, hk, slookup]
        · simp [hle, hk, hk', slookup, ih]

theorem length_sinsert_of_lookup_none (m : SMap) (k : String) (v : Nat)
    (h : slookup m k = none) : (sinsert m k v).length = m.length + 1 := by
  induction m with
  | nil => simp [sinsert]
  | cons p rest ih =>
    obtain ⟨k₀, v₀⟩ := p
    simp only [slookup] at h
    by_cases hk : k = k₀
    · simp [hk] at h
    · simp only [hk, if_false] at h
      simp only [sinsert]
      by_cases hle : strLe k k₀
      · simp [hle, hk]
      · simp [hle, hk, ih h]

/-! ## Frame index construction (`maptk_main`, image list loop)

For each image file, the loop computes the stem, assigns
`filename2frame[stem] = frame2filename.size()` and then pushes the stem
onto `frame2filename`. -/

/-- Loop body of the frame-index construction, accumulating the
`frame2filename` vector and the `filename2frame` map. -/
def buildIndexAux : List String → List String → SMap → List String × SMap
  | [], l, m => (l, m)
  | f :: fs, l, m =>
    buildIndexAux fs (l ++ [stem f]) (sinsert m (stem f) l.length)

/-- Embedding of the frame-index construction over the image list:
returns `(frame2filename, filename2frame)`. -/
def buildIndex (files : List String) : List String × SMap :=
  buildIndexAux files [] []

/-- Index of the last occurrence of `s` in a list, if any. -/
def lastIdx (s : String) : List String → Option Nat
  | [] => none
  | x :: xs =>
    match lastIdx s xs with
    | some j => some (j + 1)
    | none => if x = s then some 0 else none

theorem buildIndexAux_fst (fs : List String) (l : List String) (m : SMap) :
    (buildIndexAux fs l m).1 = l ++ fs.map stem := by
  induction fs generalizing l m with
  | nil => simp [buildIndexAux]
  | cons f fs ih => simp [buildIndexAux, ih]

theorem buildIndexAux_lookup (fs : List String) (l : List String) (m : SMap)
    (s : String) :
    slookup (buildIndexAux fs l m).2 s =
      match lastIdx s (fs.map stem) with
      | some j => some (l.length + j)
      | none => slookup m s := by
  induction fs generalizing l m with
  | nil => simp [buildIndexAux, lastIdx]
  | cons f fs ih =>
    simp only [buildIndexAux, List.map_cons, lastIdx]
    rw [ih]
    cases h : lastIdx s (fs.map stem) with
    | some j =>
      simp only [h]
      simp [List.length_append]
      omega
    | none =>
      simp only [h]
      by_cases hs : stem f = s
      · subst hs
        simp [slookup_sinsert_self]
      · have : s ≠ stem f := fun hc => hs hc.symm
        simp [hs, slookup_sinsert_ne m (stem f) s l.length this]

theorem lastIdx_get (s : String) (xs : List String) (j : Nat)
    (h : lastIdx s xs = some j) : xs.get? j = some s := by
  induction xs generalizing j with
  | nil => simp [lastIdx] at h
  | cons x xs ih =>
    simp only [lastIdx] at h
    cases hx : lastIdx s xs with
    | some j' =>
      simp only [hx] at h
      cases h
      simpa using ih j' hx
    | none =>
      simp only [hx] at h
      by_cases he : x = s
      · simp only [he, if_pos rfl] at h
        cases h
        simp [he]
      · simp [he] at h

theorem lastIdx_of_nodup (xs : List String) (hnd : xs.Nodup)
    (i : Nat) (h : i < xs.length) :
    lastIdx (xs.get ⟨i, h⟩) xs = some i := by
  induction xs generalizing i with
  | nil => simp at h
  | cons x xs ih =>
    rcases List.nodup_cons.mp hnd with ⟨hx, hnd'⟩
    cases i with
    | zero =>
      simp only [List.get, lastIdx]
      have : lastIdx x xs = none := by
        cases hlx : lastIdx x xs with
        | none => rfl
        | some j =>
          exact absurd (List.get?_mem (lastIdx_get x xs j hlx)) hx
      simp [this]
    | succ i' =>
      have h' : i' < xs.length := by simpa using h
      simp only [List.get, lastIdx]
      rw [ih hnd' i' h']

theorem buildIndexAux_length (fs : List String) (l : List String) (m : SMap)
    (hnone : ∀ s ∈ fs.map stem, slookup m s = none)
    (hnd : (fs.map stem).Nodup) :
    (buildIndexAux fs l m).2.length = m.length + fs.length := by
  induction fs generalizing l m with
  | nil => simp [buildIndexAux]
  | cons f fs ih =>
    simp only [List.map_cons] at hnone hnd
    rcases List.nodup_cons.mp hnd with ⟨hx, hnd'⟩
    simp only [buildIndexAux]
    rw [ih _ _ ?_ hnd']
    · rw [length_sinsert_of_lookup_none m (stem f) l.length
        (hnone (stem f) (by simp))]
      simp only [List.length_cons]
      omega
    · intro s hs
      have hne : s ≠ stem f := fun hc => hx (hc ▸ hs)
      rw [slookup_sinsert_ne m (stem f) s l.length hne]
      exact hnone s (by simp [hs])

/-! ## Frame-keyed ordered map (`std::map<frame_id_t, camera_sptr>`)

Camera records are abstracted by `String` values (the result of
`read_krtd_file` on a path, supplied as a function parameter). -/

/-- An ordered association list standing for the camera map
`std::map<frame_id_t, camera_sptr>`. -/
abbrev NMap := List (Nat × String)

/-- First-match lookup on the camera map. -/
def nlookup : NMap → Nat → Option String
  | [], _ => none
  | (k', v') :: rest, k => if k = k' then some v' else nlookup rest k

/-- Insert-or-assign in key order on the camera map (`operator[]`). -/
def ninsert : NMap → Nat → String → NMap
  | [], k, v => [(k, v)]
  | (k', v') :: rest, k, v =>
    if k < k' then (k, v) :: (k', v') :: rest
    else if k = k' then (k, v) :: rest
    else (k', v') :: ninsert rest k v

theorem ninsert_comm (m : NMap) (k₁ k₂ : Nat) (v₁ v₂ : String)
    (h : k₁ ≠ k₂) :
    ninsert (ninsert m k₁ v₁) k₂ v₂ = ninsert (ninsert m k₂ v₂) k₁ v₁ := by
  induction m with
  | nil =>
    simp only [ninsert]
    rcases Nat.lt_trichotomy k₁ k₂ with hlt | heq | hgt
    · simp [ninsert, Nat.not_lt.mpr (Nat.le_of_lt hlt), hlt, h, h.symm,
        Nat.ne_of_lt hlt, Nat.ne_of_gt hlt]
    · exact absurd heq h
    · simp [ninsert, Nat.not_lt.mpr (Nat.le_of_lt hgt), hgt, h, h.symm,
        Nat.ne_of_lt hgt, Nat.ne_of_gt hgt]
  | cons p rest ih =>
    obtain ⟨k₀, v₀⟩ := p
    rcases Nat.lt_trichotomy k₁ k₀ with h₁ | h₁ | h₁ <;>
      rcases Nat.lt_trichotomy k₂ k₀ with h₂ | h₂ | h₂
    · -- both smaller than the head key
      rcases Nat.lt_trichotomy k₁ k₂ with hlt | heq | hgt
      · simp [ninsert, h₁, h₂, hlt, Nat.not_lt.mpr (Nat.le_of_lt hlt), h,
          h.symm, Nat.ne_of_gt hlt]
      · exact absurd heq h
      · simp [ninsert, h₁, h₂, hgt, Nat.not_lt.mpr (Nat.le_of_lt hgt), h,
          h.symm, Nat.ne_of_gt hgt]
    · subst h₂
      simp [ninsert, h₁, h, h.symm, Nat.not_lt.mpr (Nat.le_of_lt h₁)]
    · have h12 : k₁ < k₂ := h₁.trans h₂
      simp [ninsert, h₁, h₂, Nat.not_lt.mpr (Nat.le_of_lt h₂),
        Nat.ne_of_gt h₂, Nat.not_lt.mpr (Nat.le_of_lt h12),
        Nat.ne_of_gt h12]
    · subst h₁
      simp [ninsert, h₂, h, h.symm, Nat.not_lt.mpr (Nat.le_of_lt h₂)]
    · exact absurd (h₁.trans h₂.symm) h
    · subst h₁
      simp [ninsert, Nat.lt_irrefl, h₂, Nat.not_lt.mpr (Nat.le_of_lt h₂),
        Nat.ne_of_gt h₂, h.symm]
    · have h21 : k₂ < k₁ := h₂.trans h₁
      simp [ninsert, h₂, Nat.not_lt.mpr (Nat.le_of_lt h₁),
        Nat.ne_of_gt h₁, Nat.not_lt.mpr (Nat.le_of_lt h21), h]
    · subst h₂
      simp [ninsert, Nat.lt_irrefl, h₁, Nat.not_lt.mpr (Nat.le_of_lt h₁),
        Nat.ne_of_gt h₁, h]
    · simp [ninsert, Nat.not_lt.mpr (Nat.le_of_lt h₁),
        Nat.not_lt.mpr (Nat.le_of_lt h₂), Nat.ne_of_gt h₁, Nat.ne_of_gt h₂,
        ih]

theorem ninsert_ninsert_self (m : NMap) (k : Nat) (v w : String) :
    ninsert (ninsert m k v) k w = ninsert m k w := by
  induction m with
  | nil => simp [ninsert]
  | cons p rest ih =>
    obtain ⟨k₀, v₀⟩ := p
    rcases Nat.lt_trichotomy k k₀ with h | h | h
    · simp [ninsert, h, Nat.ne_of_lt h]
    · subst h
      simp [ninsert, Nat.lt_irrefl]
    · simp [ninsert, Nat.not_lt.mpr (Nat.le_of_lt h), Nat.ne_of_gt h, ih]

/-! ## Camera file resolution and loading -/

/-- Insert a path into a lexicographically sorted list of paths. -/
def insertSorted (x : String) : List String → List String
  | [] => [x]
  | y :: ys => if strLe x y then x :: y :: ys else y :: insertSorted x ys

/-- Sort a list of paths lexicographically (the effect of `std::sort` in
`files_in_dir`; sorted permutations are unique, so any correct sort
embeds it). -/
def sortPaths : List String → List String
  | [] => []
  | x :: xs => insertSorted x (sortPaths xs)

theorem insertSorted_perm (x : String) (l : List String) :
    (insertSorted x l).Perm (x :: l) := by
  induction l with
  | nil => simp [insertSorted]
  | cons y ys ih =>
    simp only [insertSorted]
    by_cases h : strLe x y
    · simp [h]
    · simp only [h, if_false]
      exact (ih.cons y).trans (List.Perm.swap x y ys)

theorem sortPaths_perm (l : List String) : (sortPaths l).Perm l := by
  induction l with
  | nil => simp [sortPaths]
  | cons x xs ih =>
    exact (insertSorted_perm x (sortPaths xs)).trans ((ih.cons x))

/-- Embedding of `files_in_dir`: every entry of the directory is prefixed
with the directory path and the result is sorted. -/
def files_in_dir (vdir : String) (entries : List String) : List String :=
  sortPaths (entries.map (fun e => vdir ++ "/" ++ e))

/-- The `input_krtd_files` configuration value resolves either to a
directory (with its entries) or to a list file (whose lines are `none`
when the file cannot be opened, e.g. for a blank path). -/
inductive KrtdSrc where
  | dir (path : String) (entries : List String)
  | listFile (lines : Option (List String))
  deriving DecidableEq

/-- Embedding of `resolve_files`: a directory yields its sorted contents,
a list file yields its lines, an unopenable list file yields failure. -/
def resolve_files : KrtdSrc → Option (List String)
  | .dir p entries => some (files_in_dir p entries)
  | .listFile lines => lines

/-- Loop of `load_input_cameras_krtd`: for each candidate file whose stem
is found in `filename2frame`, read the camera (`readCam`) and assign it to
the matched frame id; unmatched files are skipped. -/
def collectAux (readCam : String → String) (f2f : SMap) :
    List String → NMap → NMap
  | [], m => m
  | f :: fs, m =>
    match slookup f2f (stem f) with
    | some fid => collectAux readCam f2f fs (ninsert m fid (readCam f))
    | none => collectAux readCam f2f fs m

/-- The camera map collected from a candidate file list. -/
def collectCams (readCam : String → String) (f2f : SMap)
    (files : List String) : NMap :=
  collectAux readCam f2f files []

/-- Result of `load_input_cameras_krtd`. -/
inductive LoadCamsResult where
  | failOpenList
  | failEmpty
  | ok (m : NMap) (sparse : Bool)
  deriving DecidableEq

/-- Embedding of `load_input_cameras_krtd`: resolve the candidate files,
collect the matching cameras, fail when the collection is empty, and
otherwise return the map together with the sparse-coverage warning flag
(`filename2frame.size() != krtd_cams.size()`). -/
def load_input_cameras_krtd (readCam : String → String) (f2f : SMap)
    (src : KrtdSrc) : LoadCamsResult :=
  match resolve_files src with
  | none => .failOpenList
  | some files =>
    let krtd_cams := collectCams readCam f2f files
    if krtd_cams.isEmpty then .failEmpty
    else .ok krtd_cams (decide (f2f.length ≠ krtd_cams.length))

theorem collectAux_filter (readCam : String → String) (f2f : SMap)
    (files : List String) (m : NMap) :
    collectAux readCam f2f
      (files.filter (fun f => (slookup f2f (stem f)).isSome)) m =
    collectAux readCam f2f files m := by
  induction files generalizing m with
  | nil => rfl
  | cons f fs ih =>
    cases h : slookup f2f (stem f) with
    | some fid => simp [List.filter, h, collectAux, ih]
    | none => simp [List.filter, h, collectAux, ih]

/-- Permutation invariance of camera collection, provided any two
candidate files matching the same frame id parse to the same camera
record. -/
theorem collectAux_perm (readCam : String → String) (f2f : SMap)
    (files₁ files₂ : List String) (hp : files₁.Perm files₂)
    (hinj : ∀ f g, f ∈ files₁ → g ∈ files₁ →
      slookup f2f (stem f) = slookup f2f (stem g) →
      (slookup f2f (stem f)).isSome → readCam f = readCam g) :
    ∀ m, collectAux readCam f2f files₁ m = collectAux readCam f2f files₂ m := by
  induction hp with
  | nil => intro m; rfl
  | cons x l ih =>
    intro m
    simp only [collectAux]
    cases h : slookup f2f (stem x) with
    | some fid =>
      exact ih (fun f g hf hg => hinj f g (by simp [hf]) (by simp [hg])) _
    | none =>
      exact ih (fun f g hf hg => hinj f g (by simp [hf]) (by simp [hg])) _
  | swap x y l =>
    intro m
    simp only [collectAux]
    cases hx : slookup f2f (stem x) with
    | none => cases hy : slookup f2f (stem y) <;> rfl
    | some kx =>
      cases hy : slookup f2f (stem y) with
      | none => rfl
      | some ky =>
        by_cases hk : kx = ky
        · subst hk
          have hv : readCam x = readCam y := by
            refine hinj x y (by simp) (by simp) ?_ (by simp [hx])
            rw [hx, hy]
          rw [hv]
        · show collectAux readCam f2f l
              (ninsert (ninsert m ky (readCam y)) kx (readCam x)) =
            collectAux readCam f2f l
              (ninsert (ninsert m kx (readCam x)) ky (readCam y))
          exact congrArg (collectAux readCam f2f l)
            (ninsert_comm m ky kx (readCam y) (readCam x)
              (fun hc => hk hc.symm))
  | trans h₁ h₂ ih₁ ih₂ =>
    intro m
    rename_i l₁ l₂ l₃
    have hmem : ∀ f, f ∈ l₂ → f ∈ l₁ := fun f hf => h₁.mem_iff.mpr hf
    rw [ih₁ hinj m]
    exact ih₂ (fun f g hf hg => hinj f g (hmem f hf) (hmem g hg)) m

/-! ## Local geographic coordinate system and the pipeline state -/

/-- A 3-vector of rationals (UTM origin offsets, landmark positions). -/
abbrev V3 := Rat × Rat × Rat

/-- Landmark map (`std::map<landmark_id_t, landmark_sptr>` abstracted to
identifier / position pairs). -/
abbrev LMap := List (Nat × V3)

/-- Modelled from the spec: the state of `kwiver::maptk::local_geo_cs`
(declared in `maptk/local_geo_cs.h`, outside the embedded source file).
It owns an optional UTM zone — unset is represented by a negative zone,
matching the `utm_origin_zone() >= 0` test in `maptk_main` — and a
local-origin vector. -/
structure LocalCS where
  zone : Int
  origin : V3
  deriving DecidableEq

/-- A reference track: a list of (frame, image point) observations. -/
abbrev RTrack := List (Nat × Rat × Rat)

/-- All inputs of one `apply_gcp` run after configuration checking.
File contents and external collaborators (geo projection, triangulator,
similarity / canonical estimators, transform application) are supplied
as data and functions; `S` is the type of similarity transforms. -/
structure World (S : Type) where
  /-- Whether the image list file opens. -/
  imageListOpens : Bool
  /-- Lines of the image list file. -/
  imageFiles : List String
  /-- The `input_krtd_files` configuration value, resolved. -/
  krtd : KrtdSrc
  /-- `read_krtd_file` on a path. -/
  readCam : String → String
  /-- The `geo_origin_file` configuration value (`""` = unset). -/
  geoCfg : String
  /-- Whether the geo-origin file exists. -/
  geoExists : Bool
  /-- Latitude read from the geo-origin file. -/
  geoLat : Rat
  /-- Longitude read from the geo-origin file. -/
  geoLon : Rat
  /-- Altitude read from the geo-origin file. -/
  geoAlt : Rat
  /-- `geo_mapper->latlon_to_utm`, returning easting, northing, zone. -/
  latlonToUtm : Rat → Rat → Rat × Rat × Int
  /-- Whether the `std::ofstream` on the geo-origin file opens. -/
  writeOk : Bool
  /-- The `input_reference_points_file` configuration value (`""` = unset). -/
  refCfg : String
  /-- Reference landmarks parsed from the reference points file. -/
  refLms : LMap
  /-- Reference tracks parsed from the reference points file. -/
  refTrs : List RTrack
  /-- UTM zone the reference loader would establish (non-negative). -/
  refOriginZone : Int
  /-- Origin the reference loader would establish. -/
  refOrigin : V3
  /-- Landmark map read from the input PLY file. -/
  lmMapIn : LMap
  /-- Whether `st_estimator` is configured (handle non-null). -/
  stConfigured : Bool
  /-- Whether `can_tfm_estimator` is configured (handle non-null). -/
  canConfigured : Bool
  /-- `triangulator->triangulate` over cameras, tracks and seed landmarks. -/
  triangulate : NMap → List RTrack → LMap → LMap
  /-- `st_estimator->estimate_transform` (reconstruction → reference). -/
  stEstimate : LMap → LMap → S
  /-- `can_tfm_estimator->estimate_transform` over cameras and landmarks. -/
  canEstimate : NMap → LMap → S
  /-- The identity similarity transform (`kwiver::vital::similarity_d()`). -/
  idS : S
  /-- Application of a similarity transform to one camera. -/
  applyCam : S → String → String
  /-- Application of a similarity transform to one landmark position. -/
  applyLm : S → V3 → V3

/-- Embedding of `maptk_main` lines 461-482: construct the local
coordinate system and, when the geo-origin file is configured and
exists, load `lat lon alt`, convert to UTM and set zone and origin.
Returns the coordinate system and `geo_origin_loaded_from_file`. -/
def loadGeoOrigin {S : Type} (w : World S) : LocalCS × Bool :=
  if w.geoCfg ≠ "" ∧ w.geoExists = true then
    let r := w.latlonToUtm w.geoLat w.geoLon
    (⟨r.2.2, (r.1, r.2.1, w.geoAlt)⟩, true)
  else
    (⟨-1, (0, 0, 0)⟩, false)

/-- Modelled from the spec: `kwiver::maptk::load_reference_file`
(declared in `maptk/geo_reference_points_io.h`, outside the embedded
source file). It parses the reference points file into landmarks and
tracks and, per §4.2 of the spec ("when loading did not occur, the
origin may instead become set as a side effect of ... reference-based
local-CS construction") and the stated invariant ("once set it is never
silently overwritten within a run"; "load, if present, always wins over
a newly computed value"), establishes the local origin only when the
UTM zone is still unset. Wrapped in the lines 519-528 guard: nothing
happens when no reference points file is configured. -/
def loadRef {S : Type} (w : World S) (cs : LocalCS) :
    LocalCS × LMap × List RTrack :=
  if w.refCfg ≠ "" then
    (if cs.zone < 0 then ⟨w.refOriginZone, w.refOrigin⟩ else cs,
     w.refLms, w.refTrs)
  else
    (cs, [], [])

/-- Embedding of `maptk_main` lines 530-555: when the origin zone is set
and was not loaded from the file, convert it back to geodetic and — when
a geo-origin path is configured and the output stream opens — write the
origin file once. Returns the number of writes performed. -/
def persistCount {S : Type} (w : World S) (cs : LocalCS) (loaded : Bool) :
    Nat :=
  if 0 ≤ cs.zone ∧ loaded = false ∧ w.geoCfg ≠ "" ∧ w.writeOk = true then 1
  else 0

/-! ## The transform-estimation block (`maptk_main` lines 568-618) -/

/-- Outcome data of the transform-estimation block: the resolved
similarity transform and which branches ran. -/
structure TfRes (S : Type) where
  sim : S
  entered : Bool
  refBranch : Bool
  stInvoked : Bool
  canInvoked : Bool
  deriving DecidableEq

/-- Result of the transform-estimation block; `crash` is the reference
branch dereferencing a null `st_estimator` handle. -/
inductive TfOut (S : Type) where
  | crash
  | done (r : TfRes S)
  deriving DecidableEq

/-- Whether the reference-data branch was entered. -/
def TfOut.refTaken {S : Type} : TfOut S → Bool
  | .crash => true
  | .done r => r.refBranch

/-- Whether the canonical estimator was invoked. -/
def TfOut.canUsed {S : Type} : TfOut S → Bool
  | .crash => false
  | .done r => r.canInvoked

/-- Embedding of the transform-estimation block: entered when either
estimator handle is non-null; the reference branch is guarded only by
non-emptiness of the reference landmark and track sets and calls
`st_estimator->estimate_transform` (a null dereference when only the
canonical estimator is configured); otherwise the canonical estimator
runs when configured; otherwise the transform stays identity.
`stVal` and `canVal` are the values the respective estimator calls
would produce. -/
def transformBlock {S : Type} (stCfg canCfg : Bool) (nRefLm nRefTr : Nat)
    (stVal canVal idS : S) : TfOut S :=
  if stCfg || canCfg then
    if 0 < nRefLm ∧ 0 < nRefTr then
      if stCfg then .done ⟨stVal, true, true, true, false⟩
      else .crash
    else if canCfg then .done ⟨canVal, true, false, false, true⟩
    else .done ⟨idS, true, false, false, false⟩
  else .done ⟨idS, false, false, false, false⟩

/-- `kwiver::arrows::transform` on a camera map. -/
def applyCamMap {S : Type} (ap : S → String → String) (s : S) (m : NMap) :
    NMap :=
  m.map (fun p => (p.1, ap s p.2))

/-- `kwiver::arrows::transform` on a landmark map. -/
def applyLmMap {S : Type} (ap : S → V3 → V3) (s : S) (m : LMap) : LMap :=
  m.map (fun p => (p.1, ap s p.2))

/-! ## The whole pipeline (`maptk_main` after configuration checking) -/

/-- Observable results of a run that reached the end of `maptk_main`. -/
structure RunOut (S : Type) where
  /-- The camera map loaded from KRTD files (after cloning). -/
  camsIn : NMap
  /-- The camera map after the transform-estimation block. -/
  camsOut : NMap
  /-- The landmark map after the transform-estimation block. -/
  lmsOut : LMap
  /-- Number of writes of the geo-origin file. -/
  originWrites : Nat
  /-- Local coordinate system after the geo-origin load step. -/
  csAfterLoad : LocalCS
  /-- Local coordinate system after the reference load step. -/
  csFinal : LocalCS
  /-- `geo_origin_loaded_from_file`. -/
  loadedFromFile : Bool
  /-- Outcome of the transform-estimation block. -/
  tf : TfOut S

/-- Result of one `maptk_main` run past configuration checking. Failure
constructors record the state reached before the `EXIT_FAILURE`
(every failure site precedes the origin write except the null-estimator
crash, which follows it). -/
inductive PipeResult (S : Type) where
  | failImageList
  | failKrtdList (cs1 : LocalCS) (loaded : Bool)
  | failNoCameras (cs1 : LocalCS) (loaded : Bool)
  | crashNullEst (cs1 : LocalCS) (loaded : Bool) (cs2 : LocalCS) (writes : Nat)
  | ok (out : RunOut S)

/-- Embedding of `maptk_main` lines 432-618: read the image list, build
the frame index, load / compute the geo origin, load the input cameras,
read the landmark map, load the reference data, persist the origin when
newly computed, and run the transform-estimation block, applying the
resolved transform to cameras and landmarks as a pair. -/
def pipeline {S : Type} (w : World S) : PipeResult S :=
  if w.imageListOpens = false then .failImageList
  else
    let f2f := (buildIndex w.imageFiles).2
    let gl := loadGeoOrigin w
    match load_input_cameras_krtd w.readCam f2f w.krtd with
    | .failOpenList => .failKrtdList gl.1 gl.2
    | .failEmpty => .failNoCameras gl.1 gl.2
    | .ok cams _sparse =>
      let lr := loadRef w gl.1
      let writes := persistCount w lr.1 gl.2
      let stVal := w.stEstimate (w.triangulate cams lr.2.2 lr.2.1) lr.2.1
      let canVal := w.canEstimate cams w.lmMapIn
      match transformBlock w.stConfigured w.canConfigured
          lr.2.1.length lr.2.2.length stVal canVal w.idS with
      | .crash => .crashNullEst gl.1 gl.2 lr.1 writes
      | .done r =>
        .ok { camsIn := cams
              camsOut :=
                if r.entered then applyCamMap w.applyCam r.sim cams else cams
              lmsOut :=
                if r.entered then applyLmMap w.applyLm r.sim w.lmMapIn
                else w.lmMapIn
              originWrites := writes
              csAfterLoad := gl.1
              csFinal := lr.1
              loadedFromFile := gl.2
              tf := .done r }

/-- Number of geo-origin file writes a run performed. -/
def PipeResult.writesOf {S : Type} : PipeResult S → Nat
  | .failImageList => 0
  | .failKrtdList _ _ => 0
  | .failNoCameras _ _ => 0
  | .crashNullEst _ _ _ n => n
  | .ok o => o.originWrites

/-- Final UTM origin zone of a run (negative when never resolved). -/
def PipeResult.finalZone {S : Type} : PipeResult S → Int
  | .failImageList => -1
  | .failKrtdList cs _ => cs.zone
  | .failNoCameras cs _ => cs.zone
  | .crashNullEst _ _ cs2 _ => cs2.zone
  | .ok o => o.csFinal.zone

/-! ## Command-line surface (`maptk_main` lines 327-424 and `main`) -/

/-- Parsed command-line options of the tool. -/
structure CliOpts where
  parseOk : Bool
  help : Bool
  outConfig : String
  deriving DecidableEq

/-- Observable outcome of `maptk_main` up to pipeline entry. -/
structure MainOut where
  code : Nat
  wroteConfig : Bool
  ranPipeline : Bool
  deriving DecidableEq

/-- Embedding of the front of `maptk_main`: argument-parse failure exits
1; `--help` exits 0; `-o` (`--output-config`) writes the effective
configuration and exits 0 whether or not the configuration is valid; an
invalid configuration without `-o` exits 1; otherwise the pipeline runs
and its code is returned. -/
def maptkMainModel (o : CliOpts) (valid : Bool) (pipelineCode : Nat) :
    MainOut :=
  if o.parseOk = false then ⟨1, false, false⟩
  else if o.help = true then ⟨0, false, false⟩
  else if o.outConfig ≠ "" then ⟨0, true, false⟩
  else if valid = false then ⟨1, false, false⟩
  else ⟨pipelineCode, false, true⟩

/-- Embedding of `main`: any exception escaping `maptk_main` is caught
and mapped to exit code 1. -/
def mainModel (r : Except String MainOut) : MainOut :=
  match r with
  | .ok m => m
  | .error _ => ⟨1, false, false⟩

/-! ## Concrete run configurations used in closed statements -/

/-- A baseline world: one image, blank `input_krtd_files` (an unopenable
list file), no geo-origin file, no reference points file, no estimators,
trivial collaborators, `Nat` standing in for similarity transforms with
`0` as the identity. -/
def baseWorld : World Nat where
  imageListOpens := true
  imageFiles := ["frames/a.png"]
  krtd := .listFile none
  readCam := fun p => p
  geoCfg := ""
  geoExists := false
  geoLat := 0
  geoLon := 0
  geoAlt := 0
  latlonToUtm := fun _ _ => (0, 0, 0)
  writeOk := true
  refCfg := ""
  refLms := []
  refTrs := []
  refOriginZone := 17
  refOrigin := (1, 2, 3)
  lmMapIn := [(0, (5, 6, 7))]
  stConfigured := false
  canConfigured := false
  triangulate := fun _ _ l => l
  stEstimate := fun _ _ => 7
  canEstimate := fun _ _ => 8
  idS := 0
  applyCam := fun _ c => c
  applyLm := fun _ v => v

/-! ## Claim C1 -/

/-- Claim C1 (code bug): in a run with no camera input (blank
`input_krtd_files`), no reference points file and no canonical estimator,
the pipeline does NOT complete successfully: `load_input_cameras_krtd`
fails to open the blank path as a KRTD list file and `maptk_main`
returns `EXIT_FAILURE` before any output is produced — although the
configuration documents the KRTD input as "optional, leave blank to
ignore". -/
theorem c1_no_camera_input_aborts :
    pipeline baseWorld = .failKrtdList ⟨-1, (0, 0, 0)⟩ false := by
  rfl

/-! ## Claim C2 -/

/-- Claim C2 counterexample: with both reference sets non-empty (one
landmark, one track) but neither estimator configured, the
transform-estimation block is skipped entirely, so the reference-data
path is NOT taken — refuting "whenever both the reference-landmark set
and the reference-track set are non-empty, the reference-data path is
taken". -/
theorem c2_counterexample :
    transformBlock (S := Nat) false false 1 1 7 8 0 =
      .done ⟨0, false, false, false, false⟩ ∧
    (transformBlock (S := Nat) false false 1 1 7 8 0).refTaken ≠ true := by
  constructor
  · rfl
  · decide

/-- Claim C2 (amended): whenever the estimation block is entered (at
least one of the two estimators is configured) and both the
reference-landmark set and the reference-track set are non-empty, the
reference-data path is taken and the canonical estimator is never
invoked; when the reference data is not both non-empty and a canonical
estimator is configured, the canonical path is taken; when neither
applies, the transform remains identity and no estimator is invoked. -/
theorem c2_transform_priority {S : Type} (stCfg canCfg : Bool)
    (nL nT : Nat) (stVal canVal idS : S) :
    ((stCfg || canCfg) = true → 0 < nL → 0 < nT →
      (transformBlock stCfg canCfg nL nT stVal canVal idS).refTaken = true ∧
      (transformBlock stCfg canCfg nL nT stVal canVal idS).canUsed = false) ∧
    (¬(0 < nL ∧ 0 < nT) → canCfg = true →
      transformBlock stCfg canCfg nL nT stVal canVal idS =
        .done ⟨canVal, true, false, false, true⟩) ∧
    (canCfg = false → (stCfg = false ∨ ¬(0 < nL ∧ 0 < nT)) →
      ∃ e, transformBlock stCfg canCfg nL nT stVal canVal idS =
        .done ⟨idS, e, false, false, false⟩) := by
  refine ⟨?_, ?_, ?_⟩
  · intro hent hL hT
    have hsz : 0 < nL ∧ 0 < nT := ⟨hL, hT⟩
    cases stCfg with
    | true =>
      simp [transformBlock, hsz, TfOut.refTaken, TfOut.canUsed]
    | false =>
      cases canCfg with
      | true => simp [transformBlock, hsz, TfOut.refTaken, TfOut.canUsed]
      | false => simp at hent
  · intro hsz hcan
    subst hcan
    simp [transformBlock, hsz]
  · intro hcan hside
    subst hcan
    cases stCfg with
    | false => exact ⟨false, by simp [transformBlock]⟩
    | true =>
      rcases hside with h | h
      · exact absurd h (by simp)
      · exact ⟨true, by simp [transformBlock, h]⟩

/-- Closed instance of the amended claim C2 at concrete inputs. -/
theorem c2_transform_priority_witness :
    ((transformBlock (S := Nat) true true 2 3 7 8 0).refTaken = true ∧
      (transformBlock (S := Nat) true true 2 3 7 8 0).canUsed = false) ∧
    transformBlock (S := Nat) true true 0 3 7 8 0 =
      .done ⟨8, true, false, false, true⟩ ∧
    ∃ e, transformBlock (S := Nat) true false 0 3 7 8 0 =
      .done ⟨0, e, false, false, false⟩ :=
  ⟨(c2_transform_priority true true 2 3 7 8 0).1 rfl (by decide) (by decide),
   (c2_transform_priority true true 0 3 7 8 0).2.1 (by decide) rfl,
   (c2_transform_priority true false 0 3 7 8 0).2.2 rfl (Or.inr (by decide))⟩

/-! ## Claim C3 -/

/-- A world reaching the transform block with non-empty reference data,
a configured canonical estimator and a null similarity estimator. -/
def nullEstWorld : World Nat :=
  { baseWorld with
    imageFiles := ["a.png"]
    krtd := .listFile (some ["a.krtd"])
    refCfg := "ref.txt"
    refLms := [(0, (1, 1, 1))]
    refTrs := [[(0, 2, 2)]]
    canConfigured := true }

/-- Claim C3 (code bug): the null dereference IS reachable. When the
block is entered only because the canonical estimator is configured
while the reference landmark and track sets are non-empty, the
reference branch executes and calls `estimate_transform` through the
null `st_estimator` handle. -/
theorem c3_null_deref_reachable :
    pipeline nullEstWorld =
      .crashNullEst ⟨-1, (0, 0, 0)⟩ false ⟨17, (1, 2, 3)⟩ 0 := by
  rfl

/-! ## Claim C4 -/

/-- Claim C4: geo-origin load-xor-persist. When the configured geo-origin
file exists (and is therefore loaded at startup), the run never writes
it; when it does not exist, the output stream opens and a UTM origin
becomes resolved (final zone non-negative) during the run, the run
writes it exactly once. -/
theorem c4_geo_origin_load_xor_persist {S : Type} (w : World S)
    (hcfg : w.geoCfg ≠ "") :
    (w.geoExists = true → (pipeline w).writesOf = 0) ∧
    (w.geoExists = false → w.writeOk = true →
      0 ≤ (pipeline w).finalZone → (pipeline w).writesOf = 1) := by
  constructor
  · intro hex
    have hgl : (loadGeoOrigin w).2 = true := by
      simp [loadGeoOrigin, hcfg, hex]
    simp only [pipeline]
    split
    · simp [PipeResult.writesOf]
    · split
      · simp [PipeResult.writesOf]
      · simp [PipeResult.writesOf]
      · split
        · simp [PipeResult.writesOf, persistCount, hgl]
        · simp [PipeResult.writesOf, persistCount, hgl]
  · intro hex hwOk
    have hload : loadGeoOrigin w = (⟨-1, (0, 0, 0)⟩, false) := by
      simp [loadGeoOrigin, hex]
    simp only [pipeline, hload]
    split
    · intro hz
      simp [PipeResult.finalZone] at hz
    · split
      · intro hz
        simp [PipeResult.finalZone] at hz
      · intro hz
        simp [PipeResult.finalZone] at hz
      · split
        · intro hz
          simp only [PipeResult.finalZone] at hz
          simp [PipeResult.writesOf, persistCount, hcfg, hwOk]
          exact hz
        · intro hz
          simp only [PipeResult.finalZone] at hz
          simp [PipeResult.writesOf, persistCount, hcfg, hwOk]
          exact hz

/-- A world whose geo-origin file exists. -/
def loadedOriginWorld : World Nat :=
  { baseWorld with geoCfg := "output/geo_origin.txt", geoExists := true }

/-- A world with no geo-origin file in which the reference loader
resolves an origin and the run completes. -/
def persistOriginWorld : World Nat :=
  { baseWorld with
    geoCfg := "output/geo_origin.txt"
    geoExists := false
    imageFiles := ["a.png"]
    krtd := .listFile (some ["a.krtd"])
    refCfg := "ref.txt"
    refLms := [(0, (1, 1, 1))]
    refTrs := [[(0, 2, 2)]] }

/-- Closed instance of claim C4: a loaded origin is never written back,
and a newly resolved origin is written exactly once. -/
theorem c4_witness :
    (pipeline loadedOriginWorld).writesOf = 0 ∧
    (pipeline persistOriginWorld).writesOf = 1 :=
  ⟨(c4_geo_origin_load_xor_persist loadedOriginWorld (by decide)).1 rfl,
   (c4_geo_origin_load_xor_persist persistOriginWorld (by decide)).2
     rfl rfl (by decide)⟩

/-! ## Claim C5 -/

/-- The reference loader leaves an already-set local origin unchanged. -/
theorem loadRef_fst_of_nonneg {S : Type} (w : World S) (cs : LocalCS)
    (h : 0 ≤ cs.zone) : (loadRef w cs).1 = cs := by
  unfold loadRef
  split
  · simp [Int.not_lt.mpr h]
  · rfl

/-- Claim C5: the local origin's UTM zone is set at most once per run.
Once the coordinate system is set (zone non-negative) the reference-file
loading step returns it unchanged, and in every completed run whose
origin was set at the geo-origin load step the final coordinate system
equals the loaded one. -/
theorem c5_zone_set_once {S : Type} (w : World S) :
    (∀ cs : LocalCS, 0 ≤ cs.zone → (loadRef w cs).1 = cs) ∧
    (∀ out : RunOut S, pipeline w = .ok out →
      0 ≤ out.csAfterLoad.zone → out.csFinal = out.csAfterLoad) := by
  constructor
  · exact loadRef_fst_of_nonneg w
  · intro out hout hz
    simp only [pipeline] at hout
    split at hout
    · exact absurd hout (by simp)
    · split at hout
      · exact absurd hout (by simp)
      · exact absurd hout (by simp)
      · split at hout
        · exact absurd hout (by simp)
        · cases hout
          simp only at hz ⊢
          exact loadRef_fst_of_nonneg w _ hz

/-- A world whose origin is loaded from the geo-origin file (zone 33)
and which also has reference data that could re-derive a different
origin (zone 17). -/
def loadedThenRefWorld : World Nat :=
  { baseWorld with
    geoCfg := "output/geo_origin.txt"
    geoExists := true
    latlonToUtm := fun _ _ => (10, 20, 33)
    imageFiles := ["a.png"]
    krtd := .listFile (some ["a.krtd"])
    refCfg := "ref.txt"
    refLms := [(0, (1, 1, 1))]
    refTrs := [[(0, 2, 2)]] }

/-- The run output of `loadedThenRefWorld`: the origin loaded from the
file (zone 33) survives the reference-loading step untouched. -/
def loadedThenRefOut : RunOut Nat where
  camsIn := [(0, "a.krtd")]
  camsOut := [(0, "a.krtd")]
  lmsOut := [(0, (5, 6, 7))]
  originWrites := 0
  csAfterLoad := ⟨33, (10, 20, 0)⟩
  csFinal := ⟨33, (10, 20, 0)⟩
  loadedFromFile := true
  tf := .done ⟨0, false, false, false, false⟩

/-- Closed instance of claim C5 at a concrete coordinate system and a
concrete completed run. -/
theorem c5_witness :
    (loadRef loadedThenRefWorld ⟨3, (1, 2, 3)⟩).1 = ⟨3, (1, 2, 3)⟩ ∧
    loadedThenRefOut.csFinal = loadedThenRefOut.csAfterLoad :=
  ⟨(c5_zone_set_once loadedThenRefWorld).1 ⟨3, (1, 2, 3)⟩ (by decide),
   (c5_zone_set_once loadedThenRefWorld).2 loadedThenRefOut rfl (by decide)⟩

/-! ## Claim C6 -/

/-- Claim C6 counterexample: a 2-entry image list whose two entries share
the stem `a` produces a `filename2frame` map with a single entry — the
claimed `|filename2frame| == N` fails for lists with duplicate stems
(later duplicates overwrite earlier ones). -/
theorem c6_counterexample :
    (buildIndex ["a.png", "a.jpg"]).2.length ≠ 2 := by
  decide

/-- Claim C6 (amended): for every image list with pairwise-distinct
filename stems, `|filename2frame| = N` and the assigned frame ids are
exactly `0..N-1` in list order; and for every image list — duplicates
included — `frame2filename[filename2frame[s]] = s` for every stem `s`
present in the map. -/
theorem c6_frame_index (files : List String) :
    ((files.map stem).Nodup →
      (buildIndex files).2.length = files.length ∧
      ∀ i (h : i < files.length),
        slookup (buildIndex files).2 (stem (files.get ⟨i, h⟩)) = some i) ∧
    (∀ s j, slookup (buildIndex files).2 s = some j →
      (buildIndex files).1.get? j = some s) := by
  constructor
  · intro hnd
    constructor
    · have h := buildIndexAux_length files [] [] (fun s _ => rfl) hnd
      simpa [buildIndex] using h
    · intro i h
      have hi : i < (files.map stem).length := by simpa using h
      have hmap : stem (files.get ⟨i, h⟩) = (files.map stem).get ⟨i, hi⟩ := by
        simp
      unfold buildIndex
      rw [buildIndexAux_lookup, hmap, lastIdx_of_nodup (files.map stem) hnd i hi]
      simp
  · intro s j hsj
    unfold buildIndex at hsj ⊢
    rw [buildIndexAux_lookup] at hsj
    cases hlx : lastIdx s (files.map stem) with
    | none =>
      rw [hlx] at hsj
      simp [slookup] at hsj
    | some j' =>
      rw [hlx] at hsj
      simp only [List.length_nil, Nat.zero_add, Option.some.injEq] at hsj
      subst hsj
      rw [buildIndexAux_fst]
      simpa using lastIdx_get s (files.map stem) j' hlx

/-- A 2-entry image list with distinct stems. -/
def idxFiles : List String := ["d/a.png", "d/b.png"]

/-- Closed instance of the amended claim C6: index size, id assignment
and the stem round trip at a concrete image list. -/
theorem c6_frame_index_witness :
    (buildIndex idxFiles).2.length = 2 ∧
    slookup (buildIndex idxFiles).2 (stem (idxFiles.get ⟨1, by decide⟩)) =
      some 1 ∧
    (buildIndex idxFiles).1.get? 1 = some "b" :=
  ⟨((c6_frame_index idxFiles).1 (by decide)).1,
   ((c6_frame_index idxFiles).1 (by decide)).2 1 (by decide),
   (c6_frame_index idxFiles).2 "b" 1 (by decide)⟩

/-! ## Claim C7 -/

/-- Claim C7: camera loading over any candidate file list. Candidates
whose stem is not in the frame index are silently discarded (filtering
them away changes nothing); an empty resulting map fails the loader; a
non-empty map smaller than the frame index succeeds with the
sparse-coverage warning and is returned unchanged. -/
theorem c7_camera_loading (readCam : String → String) (f2f : SMap)
    (files : List String) :
    (collectCams readCam f2f
        (files.filter (fun f => (slookup f2f (stem f)).isSome)) =
      collectCams readCam f2f files) ∧
    (collectCams readCam f2f files = [] →
      load_input_cameras_krtd readCam f2f (.listFile (some files)) =
        .failEmpty) ∧
    (collectCams readCam f2f files ≠ [] →
      load_input_cameras_krtd readCam f2f (.listFile (some files)) =
        .ok (collectCams readCam f2f files)
          (decide (f2f.length ≠ (collectCams readCam f2f files).length))) ∧
    (collectCams readCam f2f files ≠ [] →
      (collectCams readCam f2f files).length < f2f.length →
      load_input_cameras_krtd readCam f2f (.listFile (some files)) =
        .ok (collectCams readCam f2f files) true) := by
  refine ⟨collectAux_filter readCam f2f files [], ?_, ?_, ?_⟩
  · intro h
    simp [load_input_cameras_krtd, resolve_files, h]
  · intro h
    simp [load_input_cameras_krtd, resolve_files, List.isEmpty_iff, h]
  · intro h hlt
    have hne : f2f.length ≠ (collectCams readCam f2f files).length := by
      omega
    simp [load_input_cameras_krtd, resolve_files, List.isEmpty_iff, h, hne]

/-- The frame index of spec Scenario A (three frames). -/
def camIndex : SMap := [("a", 0), ("b", 1), ("c", 2)]

/-- Candidate camera files for Scenario A: two matching stems, one
unmatched stem. -/
def camFiles : List String := ["k/a.krtd", "k/b.krtd", "k/z.krtd"]

/-- Closed instance of claim C7 (spec Scenario A): two of three frames
match, the loader succeeds with a sparse warning, and the unmatched file
is discarded. -/
theorem c7_camera_loading_witness :
    load_input_cameras_krtd (fun p => p) camIndex
      (.listFile (some camFiles)) =
      .ok (collectCams (fun p => p) camIndex camFiles) true ∧
    collectCams (fun p => p) camIndex camFiles =
      [(0, "k/a.krtd"), (1, "k/b.krtd")] :=
  ⟨(c7_camera_loading (fun p => p) camIndex camFiles).2.2.2
      (by decide) (by decide),
   by decide⟩

/-! ## Claim C8 -/

/-- Claim C8: with `-o` (`--output-config`) given (and arguments parsing,
`--help` absent) the effective configuration is written and the program
exits 0 without running the pipeline, whether or not the configuration
is valid; without `-o` an invalid configuration exits 1 before any
processing; any uncaught exception exits 1. -/
theorem c8_cli_exit_codes (o : CliOpts) (valid : Bool) (pc : Nat)
    (hparse : o.parseOk = true) (hhelp : o.help = false) :
    (o.outConfig ≠ "" → maptkMainModel o valid pc = ⟨0, true, false⟩) ∧
    (o.outConfig = "" → valid = false →
      maptkMainModel o valid pc = ⟨1, false, false⟩) ∧
    (∀ e : String, mainModel (.error e) = ⟨1, false, false⟩) := by
  refine ⟨?_, ?_, fun e => rfl⟩
  · intro hout
    simp [maptkMainModel, hparse, hhelp, hout]
  · intro hout hval
    simp [maptkMainModel, hparse, hhelp, hout, hval]

/-- Closed instance of claim C8: `-o` exits 0 and writes the
configuration even when the configuration is invalid; an invalid
configuration without `-o` exits 1; an escaped exception exits 1. -/
theorem c8_cli_exit_codes_witness :
    maptkMainModel ⟨true, false, "conf.out"⟩ false 0 = ⟨0, true, false⟩ ∧
    maptkMainModel ⟨true, false, ""⟩ false 0 = ⟨1, false, false⟩ ∧
    mainModel (.error "boom") = ⟨1, false, false⟩ :=
  ⟨(c8_cli_exit_codes ⟨true, false, "conf.out"⟩ false 0 rfl rfl).1 (by decide),
   (c8_cli_exit_codes ⟨true, false, ""⟩ false 0 rfl rfl).2.1 rfl rfl,
   (c8_cli_exit_codes ⟨true, false, ""⟩ false 0 rfl rfl).2.2 "boom"⟩

/-! ## Claim C9 -/

/-- Claim C9: in every completed run there is a single resolved
similarity transform such that the output camera map and the output
landmark map are, as a pair, either both the inputs transformed by that
one transform (block entered) or both the untouched inputs (block
skipped) — the transform is never applied to one map without the
other. -/
theorem c9_transform_applied_as_pair {S : Type} (w : World S)
    (out : RunOut S) (h : pipeline w = .ok out) :
    ∃ r : TfRes S, out.tf = .done r ∧
      out.camsOut =
        (if r.entered then applyCamMap w.applyCam r.sim out.camsIn
         else out.camsIn) ∧
      out.lmsOut =
        (if r.entered then applyLmMap w.applyLm r.sim w.lmMapIn
         else w.lmMapIn) := by
  simp only [pipeline] at h
  split at h
  · exact absurd h (by simp)
  · split at h
    · exact absurd h (by simp)
    · exact absurd h (by simp)
    · split at h
      · exact absurd h (by simp)
      · rename_i r heq
        injection h with h2
        subst h2
        exact ⟨r, rfl, rfl, rfl⟩

/-- A world performing a similarity estimation from reference data and
applying it; the transform application appends a marker to each
camera. -/
def refEstWorld : World Nat :=
  { baseWorld with
    imageFiles := ["a.png"]
    krtd := .listFile (some ["a.krtd"])
    refCfg := "ref.txt"
    refLms := [(0, (1, 1, 1))]
    refTrs := [[(0, 2, 2)]]
    stConfigured := true
    applyCam := fun _ c => c ++ "T" }

/-- The run output of `refEstWorld`: the estimated transform `7` applied
to cameras and landmarks as a pair. -/
def refEstOut : RunOut Nat where
  camsIn := [(0, "a.krtd")]
  camsOut := [(0, "a.krtdT")]
  lmsOut := [(0, (5, 6, 7))]
  originWrites := 0
  csAfterLoad := ⟨-1, (0, 0, 0)⟩
  csFinal := ⟨17, (1, 2, 3)⟩
  loadedFromFile := false
  tf := .done ⟨7, true, true, true, false⟩

/-- Closed instance of claim C9 at a concrete completed run. -/
theorem c9_transform_applied_as_pair_witness :
    ∃ r : TfRes Nat, refEstOut.tf = .done r ∧
      refEstOut.camsOut =
        (if r.entered then
          applyCamMap refEstWorld.applyCam r.sim refEstOut.camsIn
         else refEstOut.camsIn) ∧
      refEstOut.lmsOut =
        (if r.entered then
          applyLmMap refEstWorld.applyLm r.sim refEstWorld.lmMapIn
         else refEstWorld.lmMapIn) :=
  c9_transform_applied_as_pair refEstWorld refEstOut rfl

/-! ## Claim C10 -/

/-- Claim C10 counterexample: a directory holding `a.krtd` and `a.txt`
(two files with the same stem) and a list file naming the same two files
in the opposite order produce different camera maps — last-wins
overwriting makes the result order-sensitive, refuting the unconditional
directory-mode / list-mode equivalence. -/
theorem c10_counterexample :
    collectCams (fun p => p) [("a", 0)]
        (files_in_dir "d" ["a.krtd", "a.txt"]) ≠
      collectCams (fun p => p) [("a", 0)] ["d/a.txt", "d/a.krtd"] := by
  decide

/-- Claim C10 (amended): directory-mode resolution (all contained files,
lexicographically sorted) and list-mode resolution of the same files
(in any order) produce identical camera maps, provided any two listed
files that match the same frame id parse to the same camera record — in
particular whenever the stems are pairwise distinct. -/
theorem c10_dir_vs_list (readCam : String → String) (f2f : SMap)
    (dir : String) (entries lst : List String)
    (hperm : lst.Perm (entries.map (fun e => dir ++ "/" ++ e)))
    (hinj : ∀ f ∈ lst, ∀ g ∈ lst,
      slookup f2f (stem f) = slookup f2f (stem g) →
      (slookup f2f (stem f)).isSome → readCam f = readCam g) :
    collectCams readCam f2f (files_in_dir dir entries) =
      collectCams readCam f2f lst := by
  have hp : (files_in_dir dir entries).Perm lst :=
    (sortPaths_perm _).trans hperm.symm
  have hmem : ∀ f, f ∈ files_in_dir dir entries → f ∈ lst := fun f hf =>
    hp.mem_iff.mp hf
  exact collectAux_perm readCam f2f _ lst hp
    (fun f g hf hg => hinj f (hmem f hf) g (hmem g hg)) []

/-- The frame index used by the C10 closed instance. -/
def dirIndex : SMap := [("a", 0), ("b", 1)]

/-- Closed instance of the amended claim C10: a directory listed in
non-sorted order and a list file naming the same files give the same
camera map. -/
theorem c10_dir_vs_list_witness :
    collectCams (fun p => p) dirIndex
        (files_in_dir "d" ["b.krtd", "a.krtd"]) =
      collectCams (fun p => p) dirIndex ["d/b.krtd", "d/a.krtd"] :=
  c10_dir_vs_list (fun p => p) dirIndex "d" ["b.krtd", "a.krtd"]
    ["d/b.krtd", "d/a.krtd"] (by decide) (by decide)

end ApplyGcp
